import Mathlib

/-!
Verification of the demand-forecasting engine of InventoryMS
(`forecasting.py`, class `ForecastingEngine`).

Python floats are modelled as exact real numbers; the sales history fetched
from the database adapter (`ForecastingData.get_sales_history`) is passed in
as an explicit list of quantities, and `datetime.now().replace(day=1)` is an
explicit integer day number `monthStart`.
-/

namespace InventoryMS

/-- Embedding of `np.mean` of a list (sum divided by length; the empty list gives `0/0 = 0`). -/
noncomputable def mean (l : List ℝ) : ℝ := l.sum / l.length

/-- Embedding of `np.var` of a list: population variance, the mean squared deviation. -/
noncomputable def popVar (l : List ℝ) : ℝ :=
  mean (l.map (fun x => (x - mean l) ^ 2))

/-- Embedding of `np.std` of a list: population standard deviation. -/
noncomputable def popStd (l : List ℝ) : ℝ := Real.sqrt (popVar l)

/-- Embedding of `np.diff` of a list: consecutive differences. -/
def diffList (l : List ℝ) : List ℝ := (l.zip l.tail).map (fun p => p.2 - p.1)

/-- Python `round(x)`: round half to even (banker's rounding). -/
noncomputable def pyRound (x : ℝ) : ℤ :=
  if x - ⌊x⌋ < 1 / 2 then ⌊x⌋
  else if 1 / 2 < x - ⌊x⌋ then ⌊x⌋ + 1
  else if ⌊x⌋ % 2 = 0 then ⌊x⌋ else ⌊x⌋ + 1

/-- Python `round(x, 2)`: round half to even at two decimal places. -/
noncomputable def pyRound2 (x : ℝ) : ℝ := (pyRound (x * 100) : ℝ) / 100

/-- The constant `self.moving_average_window` of `ForecastingEngine.__init__`. -/
def movingAverageWindow : ℕ := 3

/-- The constant `self.exponential_smoothing_alpha` of `ForecastingEngine.__init__`. -/
noncomputable def esAlpha : ℝ := 3 / 10

/-- Embedding of `ForecastingEngine.moving_average_forecast(data, periods)`.
The loop appends the mean of each trailing 3-window `data[i-2:i+1]` for
`i = 2 .. len-1`; every forecast step repeats `ma_values[-1]`; the
confidence is `clamp(0, 100, 100 - var(data[-3:]) / mean(data[-3:]) * 50)`. -/
noncomputable def movingAverageForecast (data : List ℝ) (periods : ℕ) :
    Option (List ℝ) × ℝ :=
  if data.length < movingAverageWindow then (none, 0)
  else
    let maValues :=
      (List.range' (movingAverageWindow - 1)
        (data.length - (movingAverageWindow - 1))).map
        (fun i => mean ((data.drop (i + 1 - movingAverageWindow)).take
          movingAverageWindow))
    let lastMa := maValues.getLastD 0
    let forecasts := List.replicate periods lastMa
    let recent := data.drop (data.length - movingAverageWindow)
    let confidence := max 0 (min 100 (100 - popVar recent / mean recent * 50))
    (some forecasts, confidence)

/-- The smoothing recursion of `exponential_smoothing_forecast`:
`smoothed[i] = alpha * data[i] + (1 - alpha) * smoothed[i-1]`, continuing
from the previous smoothed value `prev`. -/
noncomputable def esStep (a : ℝ) (prev : ℝ) : List ℝ → List ℝ
  | [] => []
  | x :: xs => (a * x + (1 - a) * prev) :: esStep a (a * x + (1 - a) * prev) xs

/-- The full `smoothed` list of `exponential_smoothing_forecast`:
`smoothed = [data[0]]` followed by the recursion over `data[1:]`. -/
noncomputable def smoothedSeq (a : ℝ) : List ℝ → List ℝ
  | [] => []
  | x :: xs => x :: esStep a x xs

/-- Embedding of `ForecastingEngine.exponential_smoothing_forecast(data, periods)`.
Every forecast step repeats `smoothed[-1]`; the confidence is
`clamp(0, 100, (1 - |mean(diff(recent))| / (mean(recent) + 1e-6)) * 100)`
where `recent = data[-min(6, len(data)):]`. -/
noncomputable def exponentialSmoothingForecast (data : List ℝ) (periods : ℕ) :
    Option (List ℝ) × ℝ :=
  if data.length < 2 then (none, 0)
  else
    let smoothed := smoothedSeq esAlpha data
    let lastSmoothed := smoothed.getLastD 0
    let forecasts := List.replicate periods lastSmoothed
    let recent := data.drop (data.length - min 6 data.length)
    let recentTrend := mean (diffList recent)
    let trendStability := 1 - |recentTrend| / (mean recent + 1 / 1000000)
    let confidence := max 0 (min 100 (trendStability * 100))
    (some forecasts, confidence)

/-- The ordinary least-squares line of `np.polyfit(x, y, 1)`:
`slope = (n*Σxy - Σx*Σy) / (n*Σx² - (Σx)²)`, `intercept = (Σy - slope*Σx)/n`. -/
noncomputable def polyfit1 (x y : List ℝ) : ℝ × ℝ :=
  let n : ℝ := x.length
  let sx := x.sum
  let sy := y.sum
  let sxx := (x.map (fun v => v * v)).sum
  let sxy := ((x.zip y).map (fun p => p.1 * p.2)).sum
  let slope := (n * sxy - sx * sy) / (n * sxx - sx * sx)
  (slope, (sy - slope * sx) / n)

/-- Embedding of `ForecastingEngine.trend_analysis_forecast(data, periods)`.
Least-squares line over `x = 0..n-1`; step `i` (0-based here, 1-based in the
source loop) evaluates the line at `x = n + i` and floors at 0; confidence is
the regression R² (0 when the total sum of squares is 0) scaled to `[0,100]`. -/
noncomputable def trendAnalysisForecast (data : List ℝ) (periods : ℕ) :
    Option (List ℝ) × ℝ :=
  if data.length < 3 then (none, 0)
  else
    let n := data.length
    let x := (List.range n).map (fun i : ℕ => (i : ℝ))
    let sl := polyfit1 x data
    let forecasts := (List.range periods).map
      (fun i : ℕ => max 0 (sl.1 * ((n : ℝ) + (i : ℝ)) + sl.2))
    let yPred := x.map (fun xi => sl.1 * xi + sl.2)
    let ssRes := ((data.zip yPred).map (fun p => (p.1 - p.2) ^ 2)).sum
    let ssTot := (data.map (fun yi => (yi - mean data) ^ 2)).sum
    let rSquared := if ssTot ≠ 0 then 1 - ssRes / ssTot else 0
    (some forecasts, max 0 (min 100 (rSquared * 100)))

/-- Embedding of `[data[i] for i in range(month, len(data), season_length)]`: the values at
the positions congruent to `month` modulo `season_length`. -/
def slotData (data : List ℝ) (month seasonLength : ℕ) : List ℝ :=
  (List.range data.length).filterMap
    (fun i => if i % seasonLength = month then data.get? i else none)

/-- The `seasonal_pattern` list of `seasonal_forecast`: one per-slot mean for
each `month in range(season_length)` whose slot is non-empty. -/
noncomputable def seasonalPattern (data : List ℝ) (seasonLength : ℕ) : List ℝ :=
  (List.range seasonLength).filterMap
    (fun m =>
      let md := slotData data m seasonLength
      if md.isEmpty then none else some (mean md))

/-- Embedding of `ForecastingEngine.seasonal_forecast(data, periods, season_length=12)`.
Step `i` multiplies `base = mean(data[-season_length:])` (overall mean if the
data is shorter) by `pattern[(n+i) % season_length] / mean(pattern)` (1 when
the pattern mean is not positive); confidence is
`clamp(0, 100, (1 - std(pattern) / (mean(pattern) + 1e-6)) * 100)`. -/
noncomputable def seasonalForecast (data : List ℝ) (periods : ℕ)
    (seasonLength : ℕ) : Option (List ℝ) × ℝ :=
  if data.length < seasonLength * 2 then (none, 0)
  else
    let pattern := seasonalPattern data seasonLength
    let forecasts := (List.range periods).map
      (fun i =>
        let idx := (data.length + i) % seasonLength
        let base := if seasonLength ≤ data.length then
            mean (data.drop (data.length - seasonLength)) else mean data
        let factor := if 0 < mean pattern then pattern.getD idx 0 / mean pattern
          else 1
        base * factor)
    let consistency := 1 - popStd pattern / (mean pattern + 1 / 1000000)
    (some forecasts, max 0 (min 100 (consistency * 100)))

/-- Python truthiness filtering of `ensemble_forecast`: a method enters the
`forecasts`/`confidences` dicts only when its forecast is a non-empty list. -/
def tryMethod (r : Option (List ℝ) × ℝ) : List (List ℝ × ℝ) :=
  match r with
  | (none, _) => []
  | (some f, c) => if f.isEmpty then [] else [(f, c)]

/-- The `(forecast, confidence)` pairs collected by `ensemble_forecast`, in
the dict insertion order of the source. -/
noncomputable def ensembleContributors (data : List ℝ) (periods : ℕ) :
    List (List ℝ × ℝ) :=
  tryMethod (movingAverageForecast data periods) ++
  tryMethod (exponentialSmoothingForecast data periods) ++
  tryMethod (trendAnalysisForecast data periods) ++
  tryMethod (seasonalForecast data periods 12)

/-- Embedding of `ForecastingEngine.ensemble_forecast(data, periods)`.
Step `i` is `Σ_m forecast[m][i] * (confidence[m] / Σ confidences)` over the
contributing methods; not applicable when no method contributed or the
confidences sum to 0; overall confidence is the mean of the contributors'. -/
noncomputable def ensembleForecast (data : List ℝ) (periods : ℕ) :
    Option (List ℝ) × ℝ :=
  let contribs := ensembleContributors data periods
  if contribs.isEmpty then (none, 0)
  else
    let totalWeight := (contribs.map Prod.snd).sum
    if totalWeight = 0 then (none, 0)
    else
      let f := (List.range periods).map
        (fun i => (contribs.map (fun p => p.1.getD i 0 * (p.2 / totalWeight))).sum)
      (some f, mean (contribs.map Prod.snd))

/-- One row produced by `generate_forecast`, with `period_start`/`period_end`
as integer day numbers. -/
structure ForecastRecord where
  product_id : ℕ
  warehouse_id : ℕ
  period_start : ℤ
  period_end : ℤ
  predicted_demand : ℤ
  forecast_method : String
  confidence_level : ℝ

/-- The record-building loop of `generate_forecast`: record `i` covers
`[monthStart + 30*i, monthStart + 30*i + 29]`, `predicted_demand =
int(round(value))`, `confidence_level = round(confidence, 2)`. -/
noncomputable def buildRecords (pid wid : ℕ) (monthStart : ℤ) (method : String)
    (confLevel : ℝ) : ℕ → List ℝ → List ForecastRecord
  | _, [] => []
  | i, v :: vs =>
    { product_id := pid
      warehouse_id := wid
      period_start := monthStart + 30 * i
      period_end := monthStart + 30 * i + 29
      predicted_demand := pyRound v
      forecast_method := method
      confidence_level := confLevel } ::
      buildRecords pid wid monthStart method confLevel (i + 1) vs

/-- The method dispatch of `generate_forecast`: four recognized method
strings, anything else falls through to the ensemble. -/
noncomputable def dispatchForecast (method : String) (data : List ℝ)
    (periods : ℕ) : Option (List ℝ) × ℝ :=
  if method = "moving_average" then movingAverageForecast data periods
  else if method = "exponential_smoothing" then
    exponentialSmoothingForecast data periods
  else if method = "trend_analysis" then trendAnalysisForecast data periods
  else if method = "seasonal" then seasonalForecast data periods 12
  else ensembleForecast data periods

/-- Embedding of `ForecastingEngine.generate_forecast(product_id, warehouse_id, periods,
method)`, with the 24-month history fetched by the adapter passed as the
list of its `total_quantity` values and today's month start as `monthStart`. -/
noncomputable def generateForecast (history : List ℝ) (monthStart : ℤ)
    (pid wid : ℕ) (periods : ℕ) (method : String) :
    Option (List ForecastRecord) × String :=
  if history.isEmpty then (none, "No sales history available")
  else if history.length < 3 then (none, "Insufficient data for forecasting")
  else
    match dispatchForecast method history periods with
    | (none, _) => (none, "Forecasting failed")
    | (some f, confidence) =>
      (some (buildRecords pid wid monthStart method (pyRound2 confidence) 0 f),
        "Forecast generated successfully")

/-- Embedding of `mean_absolute_error(test, predicted)` over the paired entries. -/
noncomputable def maeOf (test : List ℝ) (pred : List ℤ) : ℝ :=
  mean ((test.zip (pred.map (fun k : ℤ => (k : ℝ)))).map (fun p => |p.1 - p.2|))

/-- Embedding of `mean_squared_error(test, predicted)` over the paired entries. -/
noncomputable def mseOf (test : List ℝ) (pred : List ℤ) : ℝ :=
  mean ((test.zip (pred.map (fun k : ℤ => (k : ℝ)))).map (fun p => (p.1 - p.2) ^ 2))

/-- Embedding of the MAPE expression `np.mean(np.abs((test - predicted) / test)) * 100`. -/
noncomputable def mapeOf (test : List ℝ) (pred : List ℤ) : ℝ :=
  mean ((test.zip (pred.map (fun k : ℤ => (k : ℝ)))).map
    (fun p => |(p.1 - p.2) / p.1|)) * 100

/-- The metrics record returned by `evaluate_forecast_accuracy`. -/
structure AccuracyMetrics where
  mae : ℝ
  mse : ℝ
  rmse : ℝ
  mape : ℝ
  accuracy_score : ℝ

/-- Embedding of `ForecastingEngine.evaluate_forecast_accuracy(product_id, warehouse_id,
method)`, with the 36-month history of the evaluation fetch and the 24-month
history seen by the nested `generate_forecast` call passed explicitly.
`mae/mse/rmse/mape` are rounded to 2 decimals; `accuracy_score =
max(0, 100 - mape)` uses the unrounded MAPE. -/
noncomputable def evaluateForecastAccuracy (history36 history24 : List ℝ)
    (monthStart : ℤ) (pid wid : ℕ) (method : String) :
    Option AccuracyMetrics × String :=
  if history36.length < 12 then (none, "Insufficient data for evaluation")
  else
    let testData := history36.drop (history36.length - 12)
    match generateForecast history24 monthStart pid wid 12 method with
    | (none, _) => (none, "Could not generate forecast for evaluation")
    | (some records, _) =>
      if records.isEmpty then (none, "Could not generate forecast for evaluation")
      else
        let predicted := records.map (fun r => r.predicted_demand)
        let mae := maeOf testData predicted
        let mse := mseOf testData predicted
        let mape := mapeOf testData predicted
        (some { mae := pyRound2 mae
                mse := pyRound2 mse
                rmse := pyRound2 (Real.sqrt mse)
                mape := pyRound2 mape
                accuracy_score := max 0 (100 - mape) },
          "Evaluation completed")

/-! ### Basic numeric lemmas -/

theorem pyRound_eq_low (x : ℝ) (n : ℤ) (h1 : (n : ℝ) ≤ x)
    (h2 : x < (n : ℝ) + 1 / 2) : pyRound x = n := by
  have hf : ⌊x⌋ = n := Int.floor_eq_iff.mpr ⟨h1, by linarith⟩
  simp only [pyRound, hf]
  rw [if_pos (by push_cast; linarith)]

theorem pyRound_eq_high (x : ℝ) (n : ℤ) (h1 : (n : ℝ) + 1 / 2 < x)
    (h2 : x < (n : ℝ) + 1) : pyRound x = n + 1 := by
  have hf : ⌊x⌋ = n := Int.floor_eq_iff.mpr ⟨by linarith, by push_cast; linarith⟩
  simp only [pyRound, hf]
  rw [if_neg (by push_cast; linarith), if_pos (by push_cast; linarith)]

theorem pyRound_nonneg (x : ℝ) (h : 0 ≤ x) : 0 ≤ pyRound x := by
  have hf : 0 ≤ ⌊x⌋ := Int.floor_nonneg.mpr h
  unfold pyRound
  split_ifs <;> omega

theorem mean_nonneg (l : List ℝ) (h : ∀ x ∈ l, 0 ≤ x) : 0 ≤ mean l :=
  div_nonneg (List.sum_nonneg h) (Nat.cast_nonneg _)

theorem mean_le_of_forall_le (l : List ℝ) (C : ℝ) (hC : 0 ≤ C)
    (h : ∀ x ∈ l, x ≤ C) : mean l ≤ C := by
  rcases l with - | ⟨a, t⟩
  · simpa [mean] using hC
  · have hlen : (0 : ℝ) < ((a :: t).length : ℝ) := by
      have h0 : 0 < (a :: t).length := Nat.succ_pos _
      exact_mod_cast h0
    have hsum : (a :: t).sum ≤ ((a :: t).length : ℝ) * C := by
      have := List.sum_le_card_nsmul (a :: t) C h
      simpa [nsmul_eq_mul] using this
    rw [mean, div_le_iff hlen]
    linarith

theorem getLastD_eq_or_mem (l : List ℝ) : ∀ d : ℝ,
    l.getLastD d = d ∨ l.getLastD d ∈ l := by
  induction l with
  | nil => intro d; left; rfl
  | cons a t ih =>
    intro d
    rw [List.getLastD_cons]
    rcases ih a with h | h
    · right; rw [h]; exact List.mem_cons_self a t
    · right; exact List.mem_cons_of_mem a h

theorem getD_zero_nonneg (l : List ℝ) (n : ℕ) (h : ∀ x ∈ l, 0 ≤ x) :
    0 ≤ l.getD n 0 := by
  rw [List.getD_eq_get?]
  rcases hg : l.get? n with - | v
  · simp
  · simpa using h v (List.get?_mem hg)

/-! ### Shape lemmas for the four methods -/

theorem movingAverage_length (data : List ℝ) (periods : ℕ) (f : List ℝ) (c : ℝ)
    (h : movingAverageForecast data periods = (some f, c)) :
    f.length = periods := by
  simp only [movingAverageForecast] at h
  split_ifs at h
  · simp at h
  · simp only [Prod.mk.injEq, Option.some.injEq] at h
    rw [← h.1, List.length_replicate]

theorem exponentialSmoothing_length (data : List ℝ) (periods : ℕ) (f : List ℝ)
    (c : ℝ) (h : exponentialSmoothingForecast data periods = (some f, c)) :
    f.length = periods := by
  simp only [exponentialSmoothingForecast] at h
  split_ifs at h
  · simp at h
  · simp only [Prod.mk.injEq, Option.some.injEq] at h
    rw [← h.1, List.length_replicate]

theorem trendAnalysis_length (data : List ℝ) (periods : ℕ) (f : List ℝ) (c : ℝ)
    (h : trendAnalysisForecast data periods = (some f, c)) :
    f.length = periods := by
  simp only [trendAnalysisForecast] at h
  by_cases hg : data.length < 3
  · rw [if_pos hg] at h; simp at h
  · rw [if_neg hg] at h
    simp only [Prod.mk.injEq, Option.some.injEq] at h
    rw [← h.1]; simp

theorem seasonal_length (data : List ℝ) (periods : ℕ) (s : ℕ) (f : List ℝ)
    (c : ℝ) (h : seasonalForecast data periods s = (some f, c)) :
    f.length = periods := by
  simp only [seasonalForecast] at h
  by_cases hg : data.length < s * 2
  · rw [if_pos hg] at h; simp at h
  · rw [if_neg hg] at h
    simp only [Prod.mk.injEq, Option.some.injEq] at h
    rw [← h.1]; simp

theorem ensemble_length (data : List ℝ) (periods : ℕ) (f : List ℝ) (c : ℝ)
    (h : ensembleForecast data periods = (some f, c)) :
    f.length = periods := by
  simp only [ensembleForecast] at h
  split_ifs at h
  · simp at h
  · simp at h
  · simp only [Prod.mk.injEq, Option.some.injEq] at h
    rw [← h.1, List.length_map, List.length_range]

/-! ### Confidence bounds -/

theorem movingAverage_conf_bounds (data : List ℝ) (periods : ℕ) :
    0 ≤ (movingAverageForecast data periods).2 ∧
    (movingAverageForecast data periods).2 ≤ 100 := by
  rcases hr : movingAverageForecast data periods with ⟨o, c⟩
  simp only [movingAverageForecast] at hr
  split_ifs at hr <;> simp only [Prod.mk.injEq] at hr <;> rw [← hr.2]
  · norm_num
  · exact ⟨le_max_left 0 _, max_le (by norm_num) (min_le_left _ _)⟩

theorem exponentialSmoothing_conf_bounds (data : List ℝ) (periods : ℕ) :
    0 ≤ (exponentialSmoothingForecast data periods).2 ∧
    (exponentialSmoothingForecast data periods).2 ≤ 100 := by
  rcases hr : exponentialSmoothingForecast data periods with ⟨o, c⟩
  simp only [exponentialSmoothingForecast] at hr
  split_ifs at hr <;> simp only [Prod.mk.injEq] at hr <;> rw [← hr.2]
  · norm_num
  · exact ⟨le_max_left 0 _, max_le (by norm_num) (min_le_left _ _)⟩

theorem trendAnalysis_conf_bounds (data : List ℝ) (periods : ℕ) :
    0 ≤ (trendAnalysisForecast data periods).2 ∧
    (trendAnalysisForecast data periods).2 ≤ 100 := by
  simp only [trendAnalysisForecast]
  by_cases hg : data.length < 3
  · rw [if_pos hg]; norm_num
  · rw [if_neg hg]
    exact ⟨le_max_left 0 _, max_le (by norm_num) (min_le_left _ _)⟩

theorem seasonal_conf_bounds (data : List ℝ) (periods : ℕ) (s : ℕ) :
    0 ≤ (seasonalForecast data periods s).2 ∧
    (seasonalForecast data periods s).2 ≤ 100 := by
  simp only [seasonalForecast]
  by_cases hg : data.length < s * 2
  · rw [if_pos hg]; norm_num
  · rw [if_neg hg]
    exact ⟨le_max_left 0 _, max_le (by norm_num) (min_le_left _ _)⟩

/-! ### Non-negativity of forecast values on non-negative data -/

theorem getLastD_zero_nonneg (l : List ℝ) (h : ∀ x ∈ l, 0 ≤ x) :
    0 ≤ l.getLastD 0 := by
  rcases getLastD_eq_or_mem l 0 with hL | hL
  · rw [hL]
  · exact h _ hL

theorem movingAverage_forecast_nonneg (data : List ℝ) (periods : ℕ)
    (hd : ∀ x ∈ data, 0 ≤ x) (f : List ℝ) (c : ℝ)
    (h : movingAverageForecast data periods = (some f, c)) :
    ∀ v ∈ f, 0 ≤ v := by
  simp only [movingAverageForecast] at h
  split_ifs at h
  · simp at h
  · simp only [Prod.mk.injEq, Option.some.injEq] at h
    intro v hv
    rw [← h.1] at hv
    rw [List.eq_of_mem_replicate hv]
    apply getLastD_zero_nonneg
    intro x hx
    obtain ⟨i, -, rfl⟩ := List.mem_map.mp hx
    exact mean_nonneg _ (fun y hy =>
      hd y (List.mem_of_mem_drop (List.mem_of_mem_take hy)))

theorem esStep_nonneg (a : ℝ) (ha : 0 ≤ a) (ha1 : a ≤ 1) :
    ∀ (rest : List ℝ) (prev : ℝ), 0 ≤ prev → (∀ x ∈ rest, 0 ≤ x) →
    ∀ y ∈ esStep a prev rest, 0 ≤ y := by
  intro rest
  induction rest with
  | nil => intro prev _ _ y hy; simp [esStep] at hy
  | cons x xs ih =>
    intro prev hp hr y hy
    have hx : 0 ≤ x := hr x (List.mem_cons_self x xs)
    have hs : 0 ≤ a * x + (1 - a) * prev := by nlinarith
    rcases List.mem_cons.mp hy with rfl | hy
    · exact hs
    · exact ih _ hs (fun z hz => hr z (List.mem_cons_of_mem x hz)) y hy

theorem smoothedSeq_nonneg (a : ℝ) (ha : 0 ≤ a) (ha1 : a ≤ 1) (data : List ℝ)
    (hd : ∀ x ∈ data, 0 ≤ x) : ∀ y ∈ smoothedSeq a data, 0 ≤ y := by
  rcases data with - | ⟨x, xs⟩
  · intro y hy; simp [smoothedSeq] at hy
  · intro y hy
    have hx : 0 ≤ x := hd x (List.mem_cons_self x xs)
    rcases List.mem_cons.mp hy with rfl | hy
    · exact hx
    · exact esStep_nonneg a ha ha1 xs x hx
        (fun z hz => hd z (List.mem_cons_of_mem x hz)) y hy

theorem exponentialSmoothing_forecast_nonneg (data : List ℝ) (periods : ℕ)
    (hd : ∀ x ∈ data, 0 ≤ x) (f : List ℝ) (c : ℝ)
    (h : exponentialSmoothingForecast data periods = (some f, c)) :
    ∀ v ∈ f, 0 ≤ v := by
  simp only [exponentialSmoothingForecast] at h
  split_ifs at h
  · simp at h
  · simp only [Prod.mk.injEq, Option.some.injEq] at h
    intro v hv
    rw [← h.1] at hv
    rw [List.eq_of_mem_replicate hv]
    exact getLastD_zero_nonneg _
      (smoothedSeq_nonneg esAlpha (by norm_num [esAlpha]) (by norm_num [esAlpha])
        data hd)

theorem trendAnalysis_forecast_nonneg (data : List ℝ) (periods : ℕ)
    (f : List ℝ) (c : ℝ)
    (h : trendAnalysisForecast data periods = (some f, c)) :
    ∀ v ∈ f, 0 ≤ v := by
  simp only [trendAnalysisForecast] at h
  by_cases hg : data.length < 3
  · rw [if_pos hg] at h; simp at h
  · rw [if_neg hg] at h
    simp only [Prod.mk.injEq, Option.some.injEq] at h
    intro v hv
    rw [← h.1] at hv
    obtain ⟨i, -, rfl⟩ := List.mem_map.mp hv
    exact le_max_left 0 _

theorem slotData_subset (data : List ℝ) (m s : ℕ) :
    ∀ x ∈ slotData data m s, x ∈ data := by
  intro x hx
  obtain ⟨i, -, hif⟩ := List.mem_filterMap.mp hx
  split_ifs at hif
  exact List.get?_mem hif

theorem seasonalPattern_nonneg (data : List ℝ) (s : ℕ)
    (hd : ∀ x ∈ data, 0 ≤ x) : ∀ x ∈ seasonalPattern data s, 0 ≤ x := by
  intro x hx
  obtain ⟨m, -, hif⟩ := List.mem_filterMap.mp hx
  dsimp only at hif
  split_ifs at hif
  obtain rfl := (Option.some.injEq _ _).mp hif
  exact mean_nonneg _ (fun y hy => hd y (slotData_subset data m s y hy))

theorem seasonal_forecast_nonneg (data : List ℝ) (periods : ℕ) (s : ℕ)
    (hd : ∀ x ∈ data, 0 ≤ x) (f : List ℝ) (c : ℝ)
    (h : seasonalForecast data periods s = (some f, c)) :
    ∀ v ∈ f, 0 ≤ v := by
  simp only [seasonalForecast] at h
  by_cases hg : data.length < s * 2
  · rw [if_pos hg] at h; simp at h
  · rw [if_neg hg] at h
    simp only [Prod.mk.injEq, Option.some.injEq] at h
    intro v hv
    rw [← h.1] at hv
    obtain ⟨i, -, rfl⟩ := List.mem_map.mp hv
    apply mul_nonneg
    · split_ifs
      · exact mean_nonneg _ (fun y hy => hd y (List.mem_of_mem_drop hy))
      · exact mean_nonneg _ hd
    · split_ifs with hm
      · exact div_nonneg
          (getD_zero_nonneg _ _ (seasonalPattern_nonneg data s hd)) (le_of_lt hm)
      · norm_num

/-! ### Ensemble contributors -/

theorem tryMethod_mem (r : Option (List ℝ) × ℝ) (p : List ℝ × ℝ)
    (h : p ∈ tryMethod r) : r = (some p.1, p.2) ∧ p.1 ≠ [] := by
  rcases r with ⟨o, c⟩
  rcases o with - | fc
  · simp [tryMethod] at h
  · simp only [tryMethod] at h
    split_ifs at h with he
    · simp at h
    · rcases List.mem_singleton.mp h with rfl
      refine ⟨rfl, fun hne => he ?_⟩
      have hfc : fc = [] := hne
      rw [hfc]; rfl

theorem mem_contributors (data : List ℝ) (periods : ℕ) (p : List ℝ × ℝ)
    (h : p ∈ ensembleContributors data periods) :
    movingAverageForecast data periods = (some p.1, p.2) ∨
    exponentialSmoothingForecast data periods = (some p.1, p.2) ∨
    trendAnalysisForecast data periods = (some p.1, p.2) ∨
    seasonalForecast data periods 12 = (some p.1, p.2) := by
  simp only [ensembleContributors, List.mem_append] at h
  rcases h with ((h | h) | h) | h
  · exact Or.inl (tryMethod_mem _ _ h).1
  · exact Or.inr (Or.inl (tryMethod_mem _ _ h).1)
  · exact Or.inr (Or.inr (Or.inl (tryMethod_mem _ _ h).1))
  · exact Or.inr (Or.inr (Or.inr (tryMethod_mem _ _ h).1))

theorem contributors_conf_bounds (data : List ℝ) (periods : ℕ) :
    ∀ x ∈ (ensembleContributors data periods).map Prod.snd,
    0 ≤ x ∧ x ≤ 100 := by
  intro x hx
  obtain ⟨p, hp, rfl⟩ := List.mem_map.mp hx
  rcases mem_contributors data periods p hp with h | h | h | h
  · have hb := movingAverage_conf_bounds data periods
    rw [h] at hb; exact hb
  · have hb := exponentialSmoothing_conf_bounds data periods
    rw [h] at hb; exact hb
  · have hb := trendAnalysis_conf_bounds data periods
    rw [h] at hb; exact hb
  · have hb := seasonal_conf_bounds data periods 12
    rw [h] at hb; exact hb

theorem contributors_forecast_nonneg (data : List ℝ) (periods : ℕ)
    (hd : ∀ x ∈ data, 0 ≤ x) :
    ∀ p ∈ ensembleContributors data periods, ∀ v ∈ p.1, 0 ≤ v := by
  intro p hp
  rcases mem_contributors data periods p hp with h | h | h | h
  · exact movingAverage_forecast_nonneg data periods hd p.1 p.2 h
  · exact exponentialSmoothing_forecast_nonneg data periods hd p.1 p.2 h
  · exact trendAnalysis_forecast_nonneg data periods p.1 p.2 h
  · exact seasonal_forecast_nonneg data periods 12 hd p.1 p.2 h

theorem ensemble_conf_bounds (data : List ℝ) (periods : ℕ) :
    0 ≤ (ensembleForecast data periods).2 ∧
    (ensembleForecast data periods).2 ≤ 100 := by
  simp only [ensembleForecast]
  by_cases h1 : (ensembleContributors data periods).isEmpty
  · rw [if_pos h1]; norm_num
  · rw [if_neg h1]
    by_cases h2 :
        ((ensembleContributors data periods).map Prod.snd).sum = (0 : ℝ)
    · rw [if_pos h2]; norm_num
    · rw [if_neg h2]
      constructor
      · exact mean_nonneg _ (fun x hx =>
          (contributors_conf_bounds data periods x hx).1)
      · exact mean_le_of_forall_le _ 100 (by norm_num) (fun x hx =>
          (contributors_conf_bounds data periods x hx).2)

theorem ensemble_forecast_nonneg (data : List ℝ) (periods : ℕ)
    (hd : ∀ x ∈ data, 0 ≤ x) (f : List ℝ) (c : ℝ)
    (h : ensembleForecast data periods = (some f, c)) :
    ∀ v ∈ f, 0 ≤ v := by
  simp only [ensembleForecast] at h
  by_cases h1 : (ensembleContributors data periods).isEmpty
  · rw [if_pos h1] at h; simp at h
  · rw [if_neg h1] at h
    by_cases h2 :
        ((ensembleContributors data periods).map Prod.snd).sum = (0 : ℝ)
    · rw [if_pos h2] at h; simp at h
    · rw [if_neg h2] at h
      simp only [Prod.mk.injEq, Option.some.injEq] at h
      intro v hv
      rw [← h.1] at hv
      obtain ⟨i, -, rfl⟩ := List.mem_map.mp hv
      apply List.sum_nonneg
      intro t ht
      obtain ⟨p, hp, rfl⟩ := List.mem_map.mp ht
      have htot : 0 ≤ ((ensembleContributors data periods).map Prod.snd).sum :=
        List.sum_nonneg (fun x hx => (contributors_conf_bounds data periods x hx).1)
      have hc : 0 ≤ p.2 :=
        (contributors_conf_bounds data periods p.2
          (List.mem_map.mpr ⟨p, hp, rfl⟩)).1
      exact mul_nonneg
        (getD_zero_nonneg _ _ (contributors_forecast_nonneg data periods hd p hp))
        (div_nonneg hc htot)

/-! ### Dispatch and record building -/

theorem dispatch_length (method : String) (data : List ℝ) (periods : ℕ)
    (f : List ℝ) (c : ℝ)
    (h : dispatchForecast method data periods = (some f, c)) :
    f.length = periods := by
  unfold dispatchForecast at h
  split_ifs at h
  · exact movingAverage_length data periods f c h
  · exact exponentialSmoothing_length data periods f c h
  · exact trendAnalysis_length data periods f c h
  · exact seasonal_length data periods 12 f c h
  · exact ensemble_length data periods f c h

theorem dispatch_forecast_nonneg (method : String) (data : List ℝ)
    (periods : ℕ) (hd : ∀ x ∈ data, 0 ≤ x) (f : List ℝ) (c : ℝ)
    (h : dispatchForecast method data periods = (some f, c)) :
    ∀ v ∈ f, 0 ≤ v := by
  unfold dispatchForecast at h
  split_ifs at h
  · exact movingAverage_forecast_nonneg data periods hd f c h
  · exact exponentialSmoothing_forecast_nonneg data periods hd f c h
  · exact trendAnalysis_forecast_nonneg data periods f c h
  · exact seasonal_forecast_nonneg data periods 12 hd f c h
  · exact ensemble_forecast_nonneg data periods hd f c h

theorem buildRecords_length (pid wid : ℕ) (ms : ℤ) (method : String)
    (cl : ℝ) : ∀ (vs : List ℝ) (i : ℕ),
    (buildRecords pid wid ms method cl i vs).length = vs.length := by
  intro vs
  induction vs with
  | nil => intro i; rfl
  | cons v t ih => intro i; simp only [buildRecords, List.length_cons, ih]

theorem buildRecords_get (pid wid : ℕ) (ms : ℤ) (method : String) (cl : ℝ) :
    ∀ (vs : List ℝ) (i j : ℕ)
    (hj : j < (buildRecords pid wid ms method cl i vs).length),
    ((buildRecords pid wid ms method cl i vs).get ⟨j, hj⟩).period_start =
      ms + 30 * (i + j) ∧
    ((buildRecords pid wid ms method cl i vs).get ⟨j, hj⟩).period_end =
      ((buildRecords pid wid ms method cl i vs).get ⟨j, hj⟩).period_start + 29 := by
  intro vs
  induction vs with
  | nil => intro i j hj; simp [buildRecords] at hj
  | cons v t ih =>
    intro i j hj
    cases j with
    | zero => simp [buildRecords]
    | succ k =>
      have hk : k < (buildRecords pid wid ms method cl (i + 1) t).length := by
        have := hj
        simp only [buildRecords, List.length_cons] at this
        omega
      have := ih (i + 1) k hk
      simp only [buildRecords, List.get_cons_succ]
      refine ⟨?_, this.2⟩
      rw [this.1]
      push_cast
      ring

theorem buildRecords_mem (pid wid : ℕ) (ms : ℤ) (method : String) (cl : ℝ) :
    ∀ (vs : List ℝ) (i : ℕ) (r : ForecastRecord),
    r ∈ buildRecords pid wid ms method cl i vs →
    ∃ v ∈ vs, r.predicted_demand = pyRound v := by
  intro vs
  induction vs with
  | nil => intro i r hr; simp [buildRecords] at hr
  | cons v t ih =>
    intro i r hr
    rcases List.mem_cons.mp hr with rfl | hr
    · exact ⟨v, List.mem_cons_self v t, rfl⟩
    · obtain ⟨w, hw, hpred⟩ := ih (i + 1) r hr
      exact ⟨w, List.mem_cons_of_mem v hw, hpred⟩

theorem buildRecords_map_method (pid wid : ℕ) (ms : ℤ) (m m2 : String)
    (cl : ℝ) : ∀ (vs : List ℝ) (i : ℕ),
    (buildRecords pid wid ms m cl i vs).map
      (fun r => { r with forecast_method := m2 }) =
    buildRecords pid wid ms m2 cl i vs := by
  intro vs
  induction vs with
  | nil => intro i; rfl
  | cons v t ih => intro i; simp only [buildRecords, List.map_cons, ih]

/-! ### Short-data behaviour -/

theorem ma_short (data : List ℝ) (periods : ℕ) (h : data.length < 3) :
    movingAverageForecast data periods = (none, 0) := by
  simp only [movingAverageForecast, movingAverageWindow]
  rw [if_pos h]

theorem es_short (data : List ℝ) (periods : ℕ) (h : data.length < 2) :
    exponentialSmoothingForecast data periods = (none, 0) := by
  simp only [exponentialSmoothingForecast]
  rw [if_pos h]

theorem trend_short (data : List ℝ) (periods : ℕ) (h : data.length < 3) :
    trendAnalysisForecast data periods = (none, 0) := by
  simp only [trendAnalysisForecast]
  rw [if_pos h]

theorem seasonal_short (data : List ℝ) (periods : ℕ) (h : data.length < 24) :
    seasonalForecast data periods 12 = (none, 0) := by
  simp only [seasonalForecast]
  rw [if_pos (by omega)]

/-- Destructuring a successful `generate_forecast` run: the records are the
built records of the dispatched method's forecast. -/
theorem generate_some (history : List ℝ) (ms : ℤ) (pid wid periods : ℕ)
    (method : String) (records : List ForecastRecord) (msg : String)
    (h : generateForecast history ms pid wid periods method =
      (some records, msg)) :
    ∃ f c, dispatchForecast method history periods = (some f, c) ∧
      records = buildRecords pid wid ms method (pyRound2 c) 0 f := by
  unfold generateForecast at h
  split_ifs at h
  · simp at h
  · simp at h
  · rcases hd : dispatchForecast method history periods with ⟨o, c⟩
    rw [hd] at h
    rcases o with - | f
    · simp at h
    · simp only [Prod.mk.injEq, Option.some.injEq] at h
      exact ⟨f, c, rfl, h.1.symm⟩

/-! ### Claims -/

/-- C1 (amended): for data of length < 3 and any horizon ≥ 1, the
moving-average, trend-analysis and seasonal forecasts are not applicable
(no forecast, confidence 0); if the data moreover has length < 2, the
exponential-smoothing and ensemble forecasts are not applicable as well.
(For a length-2 sequence exponential smoothing — and so the ensemble —
can return a forecast; see the counterexample.) -/
theorem short_data_not_applicable (data : List ℝ) (periods : ℕ)
    (h : data.length < 3) (hp : 1 ≤ periods) :
    movingAverageForecast data periods = (none, 0) ∧
    trendAnalysisForecast data periods = (none, 0) ∧
    seasonalForecast data periods 12 = (none, 0) ∧
    (data.length < 2 →
      exponentialSmoothingForecast data periods = (none, 0) ∧
      ensembleForecast data periods = (none, 0)) := by
  refine ⟨ma_short data periods h, trend_short data periods h,
    seasonal_short data periods (by omega), fun h2 => ?_⟩
  refine ⟨es_short data periods h2, ?_⟩
  have hcon : ensembleContributors data periods = [] := by
    simp [ensembleContributors, ma_short data periods h,
      es_short data periods h2, trend_short data periods h,
      seasonal_short data periods (by omega), tryMethod]
  simp [ensembleForecast, hcon]

theorem short_data_not_applicable_witness :
    ([5] : List ℝ).length < 3 ∧ 1 ≤ 1 ∧
    (movingAverageForecast [5] 1 = (none, 0) ∧
     trendAnalysisForecast [5] 1 = (none, 0) ∧
     seasonalForecast [5] 1 12 = (none, 0) ∧
     (([5] : List ℝ).length < 2 →
       exponentialSmoothingForecast [5] 1 = (none, 0) ∧
       ensembleForecast [5] 1 = (none, 0))) :=
  ⟨by norm_num, le_refl 1,
    short_data_not_applicable [5] 1 (by norm_num) (le_refl 1)⟩

/-- C2: on a history of non-negative quantities, every record returned by
`generate_forecast` (any method, any horizon) has a non-negative
`predicted_demand`. -/
theorem generate_forecast_predicted_demand_nonneg (history : List ℝ) (ms : ℤ)
    (pid wid periods : ℕ) (method : String)
    (hd : ∀ x ∈ history, 0 ≤ x) :
    ∀ (records : List ForecastRecord) (msg : String),
      generateForecast history ms pid wid periods method = (some records, msg) →
      ∀ r ∈ records, 0 ≤ r.predicted_demand := by
  intro records msg h r hr
  obtain ⟨f, c, hdp, rfl⟩ := generate_some _ _ _ _ _ _ _ _ h
  obtain ⟨v, hv, hpred⟩ := buildRecords_mem _ _ _ _ _ f 0 r hr
  rw [hpred]
  exact pyRound_nonneg v
    (dispatch_forecast_nonneg method history periods hd f c hdp v hv)

theorem generate_forecast_predicted_demand_nonneg_witness :
    (∀ x ∈ ([1, 2, 3] : List ℝ), 0 ≤ x) ∧
    (∀ (records : List ForecastRecord) (msg : String),
      generateForecast [1, 2, 3] 0 1 1 2 "moving_average" =
        (some records, msg) →
      ∀ r ∈ records, 0 ≤ r.predicted_demand) :=
  ⟨by norm_num,
    generate_forecast_predicted_demand_nonneg [1, 2, 3] 0 1 1 2
      "moving_average" (by norm_num)⟩

/-- C3: a successful `generate_forecast` call with horizon N returns exactly
N records; every record's `period_end` is its `period_start` plus 29 days,
and record i starts at the month start plus 30·i days. -/
theorem generate_forecast_record_count_and_periods (history : List ℝ)
    (ms : ℤ) (pid wid N : ℕ) (method : String)
    (records : List ForecastRecord) (msg : String)
    (h : generateForecast history ms pid wid N method = (some records, msg)) :
    records.length = N ∧
    ∀ (i : ℕ) (hi : i < records.length),
      (records.get ⟨i, hi⟩).period_end =
        (records.get ⟨i, hi⟩).period_start + 29 ∧
      (records.get ⟨i, hi⟩).period_start = ms + 30 * (i : ℤ) := by
  obtain ⟨f, c, hdp, rfl⟩ := generate_some _ _ _ _ _ _ _ _ h
  constructor
  · rw [buildRecords_length]
    exact dispatch_length method history N f c hdp
  · intro i hi
    have hg := buildRecords_get pid wid ms method (pyRound2 c) f 0 i hi
    refine ⟨hg.2, ?_⟩
    rw [hg.1]
    norm_num

/-- C4: whenever the ensemble returns a forecast its confidence is the
unweighted arithmetic mean of the contributing methods' confidences, and
on every input the ensemble confidence lies in [0, 100]. -/
theorem ensemble_confidence_mean_and_bounds (data : List ℝ) (periods : ℕ) :
    ((ensembleForecast data periods).1 ≠ none →
      (ensembleForecast data periods).2 =
        mean ((ensembleContributors data periods).map Prod.snd)) ∧
    0 ≤ (ensembleForecast data periods).2 ∧
    (ensembleForecast data periods).2 ≤ 100 := by
  refine ⟨?_, (ensemble_conf_bounds data periods).1,
    (ensemble_conf_bounds data periods).2⟩
  intro hne
  simp only [ensembleForecast] at hne ⊢
  by_cases h1 : (ensembleContributors data periods).isEmpty
  · rw [if_pos h1] at hne; simp at hne
  · rw [if_neg h1] at hne ⊢
    by_cases h2 : ((ensembleContributors data periods).map Prod.snd).sum = (0 : ℝ)
    · rw [if_pos h2] at hne; simp at hne
    · rw [if_neg h2]

/-- Modelled from the spec (the refinement reference for C6): the forecast
"repeats this single mean" of the last window `data[-3:]`. -/
noncomputable def movingAverageSpec (data : List ℝ) (periods : ℕ) : List ℝ :=
  List.replicate periods (mean (data.drop (data.length - 3)))

/-- C6: for data of length ≥ 3, the moving-average forecast is the mean of
the last 3 observations repeated `periods` times: the loop over the earlier
trailing windows has no effect on the returned forecast. -/
theorem moving_average_uses_only_last_window (data : List ℝ) (periods : ℕ)
    (h3 : 3 ≤ data.length) (hp : 1 ≤ periods) :
    (movingAverageForecast data periods).1 =
      some (movingAverageSpec data periods) := by
  simp only [movingAverageForecast, movingAverageSpec, movingAverageWindow]
  rw [if_neg (by omega)]
  have hn : data.length - 2 = (data.length - 3) + 1 := by omega
  rw [hn, List.range'_concat, List.map_append, List.map_singleton,
    List.getLastD_concat]
  have hidx : 2 + 1 * (data.length - 3) + 1 - 3 = data.length - 3 := by omega
  rw [hidx, List.take_of_length_le (by rw [List.length_drop]; omega)]

theorem moving_average_uses_only_last_window_witness :
    3 ≤ ([1, 2, 3] : List ℝ).length ∧ 1 ≤ 1 ∧
    (movingAverageForecast [1, 2, 3] 1).1 =
      some (movingAverageSpec [1, 2, 3] 1) :=
  ⟨by norm_num, le_refl 1,
    moving_average_uses_only_last_window [1, 2, 3] 1 (by norm_num) (le_refl 1)⟩

/-- C9: whatever the method, a history with fewer than 12 observations makes
`evaluate_forecast_accuracy` fail with the insufficient-data message. -/
theorem evaluate_insufficient_data (h36 h24 : List ℝ) (ms : ℤ)
    (pid wid : ℕ) (method : String) (h : h36.length < 12) :
    evaluateForecastAccuracy h36 h24 ms pid wid method =
      (none, "Insufficient data for evaluation") := by
  unfold evaluateForecastAccuracy
  rw [if_pos h]

theorem evaluate_insufficient_data_witness :
    ([3, 4] : List ℝ).length < 12 ∧
    evaluateForecastAccuracy [3, 4] [] 0 1 1 "seasonal" =
      (none, "Insufficient data for evaluation") :=
  ⟨by norm_num,
    evaluate_insufficient_data [3, 4] [] 0 1 1 "seasonal" (by norm_num)⟩

/-- C10: an unrecognized method string falls through to the ensemble:
`generate_forecast` returns exactly the ensemble call's output, except that
every record's `forecast_method` field carries the given string verbatim
(same `predicted_demand` and `confidence_level`, same message). -/
theorem unknown_method_dispatches_to_ensemble (history : List ℝ) (ms : ℤ)
    (pid wid periods : ℕ) (method : String)
    (h1 : method ≠ "moving_average") (h2 : method ≠ "exponential_smoothing")
    (h3 : method ≠ "trend_analysis") (h4 : method ≠ "seasonal") :
    generateForecast history ms pid wid periods method =
      ((generateForecast history ms pid wid periods "ensemble").1.map
        (List.map (fun r => { r with forecast_method := method })),
       (generateForecast history ms pid wid periods "ensemble").2) := by
  have hde : dispatchForecast method history periods =
      ensembleForecast history periods := by
    unfold dispatchForecast
    rw [if_neg h1, if_neg h2, if_neg h3, if_neg h4]
  have hde2 : dispatchForecast "ensemble" history periods =
      ensembleForecast history periods := by
    unfold dispatchForecast
    rw [if_neg (by decide), if_neg (by decide), if_neg (by decide),
      if_neg (by decide)]
  by_cases hE : history.isEmpty
  · simp [generateForecast, hE]
  · by_cases hL : history.length < 3
    · simp [generateForecast, hE, hL]
    · rcases he : ensembleForecast history periods with ⟨o, c⟩
      rcases o with - | f
      · simp [generateForecast, hE, hL, hde, hde2, he]
      · simp [generateForecast, hE, hL, hde, hde2, he, buildRecords_map_method]

theorem unknown_method_dispatches_to_ensemble_witness :
    generateForecast [1, 2, 3] 0 1 1 1 "foo" =
      ((generateForecast [1, 2, 3] 0 1 1 1 "ensemble").1.map
        (List.map (fun r => { r with forecast_method := "foo" })),
       (generateForecast [1, 2, 3] 0 1 1 1 "ensemble").2) :=
  unknown_method_dispatches_to_ensemble [1, 2, 3] 0 1 1 1 "foo"
    (by decide) (by decide) (by decide) (by decide)

/-! ### Concrete evaluations -/

theorem es_two : exponentialSmoothingForecast [1, 2] 1 =
    (some [13 / 10], 50000100 / 1500001) := by
  simp only [exponentialSmoothingForecast]
  rw [if_neg (by norm_num)]
  rw [Prod.mk.injEq]
  constructor
  · have hs : smoothedSeq esAlpha [1, 2] = [1, 13 / 10] := by
      norm_num [smoothedSeq, esStep, esAlpha]
    rw [hs]
    simp
  · have hdrop : List.drop (([1, 2] : List ℝ).length - min 6 ([1, 2] : List ℝ).length)
        ([1, 2] : List ℝ) = [1, 2] := by norm_num
    rw [hdrop]
    have hdiff : diffList [1, 2] = [1] := by norm_num [diffList]
    rw [hdiff]
    have hm1 : mean [(1 : ℝ)] = 1 := by norm_num [mean]
    have hm2 : mean [(1 : ℝ), 2] = 3 / 2 := by norm_num [mean]
    rw [hm1, hm2]
    rw [min_eq_right (by rw [abs_one]; norm_num),
      max_eq_right (by rw [abs_one]; norm_num)]
    rw [abs_one]
    norm_num

theorem ensemble_two : ensembleForecast [1, 2] 1 =
    (some [13 / 10], 50000100 / 1500001) := by
  have hcon : ensembleContributors [1, 2] 1 =
      [([13 / 10], 50000100 / 1500001)] := by
    rw [ensembleContributors, ma_short [1, 2] 1 (by norm_num),
      trend_short [1, 2] 1 (by norm_num), seasonal_short [1, 2] 1 (by norm_num),
      es_two]
    simp [tryMethod]
  simp only [ensembleForecast, hcon]
  rw [if_neg (by simp), if_neg (by norm_num)]
  rw [Prod.mk.injEq]
  constructor
  · have hr1 : List.range 1 = [0] := rfl
    rw [hr1]
    simp
  · norm_num [mean]

/-- C1 (counterexample): the claim fails at `data = [1, 2]`, `periods = 1`:
the data has length < 3, yet exponential smoothing returns a forecast
(`[1.3]`, with positive confidence), and therefore so does the ensemble. -/
theorem length_two_data_yields_forecast :
    ([1, 2] : List ℝ).length < 3 ∧
    (exponentialSmoothingForecast [1, 2] 1).1 ≠ none ∧
    (ensembleForecast [1, 2] 1).1 ≠ none := by
  refine ⟨by norm_num, ?_, ?_⟩
  · rw [es_two]; simp
  · rw [ensemble_two]; simp

theorem ensemble_confidence_mean_and_bounds_witness :
    (ensembleForecast [1, 2] 1).2 =
      mean ((ensembleContributors [1, 2] 1).map Prod.snd) ∧
    0 ≤ (ensembleForecast [1, 2] 1).2 ∧
    (ensembleForecast [1, 2] 1).2 ≤ 100 :=
  ⟨(ensemble_confidence_mean_and_bounds [1, 2] 1).1
      (by rw [ensemble_two]; simp),
    (ensemble_confidence_mean_and_bounds [1, 2] 1).2.1,
    (ensemble_confidence_mean_and_bounds [1, 2] 1).2.2⟩

/-- C8: on `data = [1, 2, 3]` with α = 0.3 the internal smoothed sequence is
`[1, 1.3, 1.81]`, and the 2-period forecast repeats the final smoothed value:
`[1.81, 1.81]`. -/
theorem exponential_smoothing_example :
    smoothedSeq esAlpha [1, 2, 3] = [1, 1.3, 1.81] ∧
    (exponentialSmoothingForecast [1, 2, 3] 2).1 = some [1.81, 1.81] := by
  have hs : smoothedSeq esAlpha [1, 2, 3] = [1, 1.3, 1.81] := by
    norm_num [smoothedSeq, esStep, esAlpha]
  refine ⟨hs, ?_⟩
  simp only [exponentialSmoothingForecast]
  rw [if_neg (by norm_num), hs]
  simp [List.replicate]

/-- C7: on the perfect line `data = [1, 2, 3, 4]` the least-squares fit is
slope 1, intercept 1; the 2-period trend forecast is `[5, 6]` and R² = 1
gives confidence 100. -/
theorem trend_forecast_on_perfect_line :
    polyfit1 ((List.range 4).map (fun i : ℕ => (i : ℝ))) [1, 2, 3, 4] =
      (1, 1) ∧
    trendAnalysisForecast [1, 2, 3, 4] 2 = (some [5, 6], 100) := by
  have hx : (List.range 4).map (fun i : ℕ => (i : ℝ)) = [0, 1, 2, 3] := by
    norm_num [List.range_succ]
  have hp : polyfit1 [(0 : ℝ), 1, 2, 3] [1, 2, 3, 4] = (1, 1) := by
    simp only [polyfit1, List.zip]
    norm_num [List.zipWith]
  refine ⟨by rw [hx, hp], ?_⟩
  simp only [trendAnalysisForecast]
  rw [if_neg (by norm_num)]
  have hlen : ([1, 2, 3, 4] : List ℝ).length = 4 := by norm_num
  rw [hlen, hx, hp]
  have hmean : mean [(1 : ℝ), 2, 3, 4] = 5 / 2 := by norm_num [mean]
  rw [hmean]
  have hTot : (List.map (fun yi => (yi - 5 / 2) ^ 2) ([1, 2, 3, 4] : List ℝ)).sum
      = 5 := by norm_num
  rw [hTot]
  rw [Prod.mk.injEq]
  constructor
  · have hr2 : List.range 2 = [0, 1] := rfl
    rw [hr2]
    norm_num [max_def]
  · rw [if_pos (by norm_num)]
    norm_num [List.zip, List.zipWith, max_def, min_def]

theorem ma_123 : movingAverageForecast [1, 2, 3] 1 = (some [2], 250 / 3) := by
  simp only [movingAverageForecast, movingAverageWindow]
  rw [if_neg (by norm_num)]
  rw [Prod.mk.injEq]
  constructor
  · norm_num [List.range', mean]
  · norm_num [popVar, mean, min_def, max_def]

theorem generate_123 : generateForecast [1, 2, 3] 0 1 1 1 "moving_average" =
    (some [⟨1, 1, 0, 29, 2, "moving_average", 8333 / 100⟩],
      "Forecast generated successfully") := by
  have hd : dispatchForecast "moving_average" [1, 2, 3] 1 = (some [2], 250 / 3) := by
    unfold dispatchForecast
    rw [if_pos rfl]
    exact ma_123
  unfold generateForecast
  rw [if_neg (by simp), if_neg (by norm_num), hd]
  have hcl : pyRound2 (250 / 3) = 8333 / 100 := by
    unfold pyRound2
    rw [show (250 / 3 : ℝ) * 100 = 25000 / 3 by norm_num]
    rw [pyRound_eq_low (25000 / 3) 8333 (by norm_num) (by norm_num)]
    norm_num
  have hpr : pyRound (2 : ℝ) = 2 := pyRound_eq_low 2 2 (by norm_num) (by norm_num)
  simp [buildRecords, hcl, hpr]

theorem generate_forecast_record_count_and_periods_witness :
    generateForecast [1, 2, 3] 0 1 1 1 "moving_average" =
      (some [⟨1, 1, 0, 29, 2, "moving_average", 8333 / 100⟩],
        "Forecast generated successfully") ∧
    ([(⟨1, 1, 0, 29, 2, "moving_average", 8333 / 100⟩ : ForecastRecord)].length
        = 1 ∧
      ∀ (i : ℕ) (hi : i <
        [(⟨1, 1, 0, 29, 2, "moving_average", 8333 / 100⟩ :
          ForecastRecord)].length),
        (([(⟨1, 1, 0, 29, 2, "moving_average", 8333 / 100⟩ :
            ForecastRecord)]).get ⟨i, hi⟩).period_end =
          (([(⟨1, 1, 0, 29, 2, "moving_average", 8333 / 100⟩ :
            ForecastRecord)]).get ⟨i, hi⟩).period_start + 29 ∧
        (([(⟨1, 1, 0, 29, 2, "moving_average", 8333 / 100⟩ :
            ForecastRecord)]).get ⟨i, hi⟩).period_start = 0 + 30 * (i : ℤ)) :=
  ⟨generate_123,
    generate_forecast_record_count_and_periods [1, 2, 3] 0 1 1 1
      "moving_average" _ _ generate_123⟩

/-! ### Rounding of the accuracy metrics -/

/-- The real `x` carries at most 2 decimal places (it is some integer over 100). -/
def isRounded2 (x : ℝ) : Prop := ∃ k : ℤ, x = (k : ℝ) / 100

theorem isRounded2_pyRound2 (x : ℝ) : isRounded2 (pyRound2 x) :=
  ⟨pyRound (x * 100), rfl⟩

theorem zip_replicate_same {α β : Type} (a : α) (b : β) :
    ∀ n : ℕ, List.zip (List.replicate n a) (List.replicate n b) =
      List.replicate n (a, b) := by
  intro n
  induction n with
  | zero => rfl
  | succ k ih => simp only [List.replicate, List.zip_cons_cons, ih]

theorem mean_replicate (n : ℕ) (hn : n ≠ 0) (x : ℝ) :
    mean (List.replicate n x) = x := by
  rw [mean, List.sum_replicate, List.length_replicate, nsmul_eq_mul]
  rw [mul_comm, mul_div_assoc, div_self (Nat.cast_ne_zero.mpr hn), mul_one]

theorem ma_222 : movingAverageForecast [2, 2, 2] 12 =
    (some (List.replicate 12 2), 100) := by
  simp only [movingAverageForecast, movingAverageWindow]
  rw [if_neg (by norm_num)]
  rw [Prod.mk.injEq]
  constructor
  · norm_num [List.range', mean]
  · norm_num [popVar, mean, min_def, max_def]

theorem generate_222 : generateForecast [2, 2, 2] 0 1 1 12 "moving_average" =
    (some (buildRecords 1 1 0 "moving_average" 100 0 (List.replicate 12 2)),
      "Forecast generated successfully") := by
  have hd : dispatchForecast "moving_average" [2, 2, 2] 12 =
      (some (List.replicate 12 2), 100) := by
    unfold dispatchForecast
    rw [if_pos rfl]
    exact ma_222
  unfold generateForecast
  rw [if_neg (by simp), if_neg (by norm_num), hd]
  have hcl : pyRound2 (100 : ℝ) = 100 := by
    unfold pyRound2
    rw [show (100 : ℝ) * 100 = ((10000 : ℤ) : ℝ) by norm_num]
    rw [pyRound_eq_low _ 10000 (le_refl _) (by norm_num)]
    norm_num
  show (some (buildRecords 1 1 0 "moving_average" (pyRound2 100) 0
    (List.replicate 12 2)), "Forecast generated successfully") = _
  rw [hcl]

theorem buildRecords_pred_replicate (pid wid : ℕ) (ms : ℤ) (m : String)
    (cl : ℝ) (v : ℝ) : ∀ (k i : ℕ),
    (buildRecords pid wid ms m cl i (List.replicate k v)).map
      (fun r => r.predicted_demand) = List.replicate k (pyRound v) := by
  intro k
  induction k with
  | zero => intro i; rfl
  | succ j ih =>
    intro i
    simp only [List.replicate, buildRecords, List.map_cons, ih]

theorem evaluate_concrete :
    evaluateForecastAccuracy (List.replicate 12 3) [2, 2, 2] 0 1 1
      "moving_average" =
    (some ⟨1, 1, 1, 3333 / 100, 200 / 3⟩, "Evaluation completed") := by
  have hpr2 : pyRound (2 : ℝ) = 2 := pyRound_eq_low 2 2 (by norm_num) (by norm_num)
  have hpred : (buildRecords 1 1 0 "moving_average" 100 0
      (List.replicate 12 2)).map (fun r => r.predicted_demand) =
      List.replicate 12 (2 : ℤ) := by
    rw [buildRecords_pred_replicate, hpr2]
  have hne : (buildRecords 1 1 0 "moving_average" 100 0
      (List.replicate 12 (2 : ℝ))).isEmpty = false := rfl
  have hmae : maeOf (List.replicate 12 3) (List.replicate 12 2) = 1 := by
    rw [maeOf, List.map_replicate, zip_replicate_same, List.map_replicate,
      mean_replicate 12 (by norm_num)]
    norm_num
  have hmse : mseOf (List.replicate 12 3) (List.replicate 12 2) = 1 := by
    rw [mseOf, List.map_replicate, zip_replicate_same, List.map_replicate,
      mean_replicate 12 (by norm_num)]
    norm_num
  have hmape : mapeOf (List.replicate 12 3) (List.replicate 12 2) = 100 / 3 := by
    rw [mapeOf, List.map_replicate, zip_replicate_same, List.map_replicate,
      mean_replicate 12 (by norm_num)]
    norm_num
    rw [abs_of_nonneg (by norm_num : (0 : ℝ) ≤ 1 / 3)]
    norm_num
  have hr1 : pyRound2 (1 : ℝ) = 1 := by
    unfold pyRound2
    rw [show (1 : ℝ) * 100 = ((100 : ℤ) : ℝ) by norm_num]
    rw [pyRound_eq_low _ 100 (le_refl _) (by norm_num)]
    norm_num
  have hr3 : pyRound2 (100 / 3 : ℝ) = 3333 / 100 := by
    unfold pyRound2
    rw [show (100 / 3 : ℝ) * 100 = 10000 / 3 by norm_num]
    rw [pyRound_eq_low (10000 / 3) 3333 (by norm_num) (by norm_num)]
    norm_num
  unfold evaluateForecastAccuracy
  rw [if_neg (by simp)]
  simp only [generate_222, hne]
  rw [if_neg Bool.false_ne_true]
  rw [List.length_replicate]
  rw [show (12 - 12 : ℕ) = 0 from rfl, List.drop_zero]
  rw [hpred, hmae, hmse, hmape, hr1, hr3]
  rw [Real.sqrt_one, hr1]
  rw [Prod.mk.injEq]
  refine ⟨?_, rfl⟩
  rw [Option.some.injEq, AccuracyMetrics.mk.injEq]
  refine ⟨rfl, rfl, rfl, rfl, ?_⟩
  rw [max_eq_right (by norm_num)]
  norm_num

/-- C5 (counterexample): `evaluate_forecast_accuracy` can return a metrics
record whose `accuracy_score` is not rounded to 2 decimal places — with a
12-month actual history of constant 3 and a training history `[2, 2, 2]`
under the moving-average method, `accuracy_score = 200/3 = 66.66...`,
which is not an integer number of hundredths. -/
theorem accuracy_score_not_rounded :
    ∃ m : AccuracyMetrics,
      (evaluateForecastAccuracy (List.replicate 12 3) [2, 2, 2] 0 1 1
        "moving_average").1 = some m ∧
      m.accuracy_score = 200 / 3 ∧ ¬ isRounded2 m.accuracy_score := by
  refine ⟨⟨1, 1, 1, 3333 / 100, 200 / 3⟩, by rw [evaluate_concrete], rfl, ?_⟩
  rintro ⟨k, hk⟩
  have h3 : (20000 : ℝ) = 3 * (k : ℝ) := by
    field_simp at hk
    linarith
  have hz : (20000 : ℤ) = 3 * k := by exact_mod_cast h3
  omega

/-- C5 (amended): whenever `evaluate_forecast_accuracy` returns a metrics
record, the four error metrics `mae`, `mse`, `rmse` and `mape` are rounded
to 2 decimal places; the fifth value, `accuracy_score`, is returned
unrounded as `max(0, 100 - MAPE)` with the *unrounded* MAPE. -/
theorem accuracy_metrics_rounding (h36 h24 : List ℝ) (ms : ℤ) (pid wid : ℕ)
    (method : String) (m : AccuracyMetrics) (msg : String)
    (h : evaluateForecastAccuracy h36 h24 ms pid wid method = (some m, msg)) :
    isRounded2 m.mae ∧ isRounded2 m.mse ∧ isRounded2 m.rmse ∧
    isRounded2 m.mape ∧
    ∃ (records : List ForecastRecord) (msg2 : String),
      generateForecast h24 ms pid wid 12 method = (some records, msg2) ∧
      m.accuracy_score = max 0 (100 -
        mapeOf (h36.drop (h36.length - 12))
          (records.map (fun r => r.predicted_demand))) := by
  unfold evaluateForecastAccuracy at h
  split_ifs at h
  · simp at h
  · rcases hg : generateForecast h24 ms pid wid 12 method with ⟨o, msg2⟩
    rw [hg] at h
    rcases o with - | records
    · simp at h
    · by_cases he : records.isEmpty
      · simp only [he, if_true] at h
        simp at h
      · simp only [he, Bool.false_eq_true, if_false] at h
        simp only [Prod.mk.injEq, Option.some.injEq] at h
        obtain ⟨hm, -⟩ := h
        rw [← hm]
        exact ⟨isRounded2_pyRound2 _, isRounded2_pyRound2 _,
          isRounded2_pyRound2 _, isRounded2_pyRound2 _,
          records, msg2, rfl, rfl⟩

theorem accuracy_metrics_rounding_witness :
    isRounded2 (AccuracyMetrics.mk 1 1 1 (3333 / 100) (200 / 3)).mae ∧
    isRounded2 (AccuracyMetrics.mk 1 1 1 (3333 / 100) (200 / 3)).mse ∧
    isRounded2 (AccuracyMetrics.mk 1 1 1 (3333 / 100) (200 / 3)).rmse ∧
    isRounded2 (AccuracyMetrics.mk 1 1 1 (3333 / 100) (200 / 3)).mape ∧
    ∃ (records : List ForecastRecord) (msg2 : String),
      generateForecast [2, 2, 2] 0 1 1 12 "moving_average" =
        (some records, msg2) ∧
      (AccuracyMetrics.mk 1 1 1 (3333 / 100) (200 / 3)).accuracy_score =
        max 0 (100 - mapeOf
          ((List.replicate 12 3).drop ((List.replicate 12 3).length - 12))
          (records.map (fun r => r.predicted_demand))) :=
  accuracy_metrics_rounding (List.replicate 12 3) [2, 2, 2] 0 1 1
    "moving_average" ⟨1, 1, 1, 3333 / 100, 200 / 3⟩ "Evaluation completed"
    evaluate_concrete

end InventoryMS
